import Mathlib

/-!
A shallow embedding of the uFAT block-cached FAT access layer (src/ufat.c):
the block cache (cache_flush, ufat_cache_open), the BPB parser (parse_bpb),
the volume lifecycle (ufat_open, ufat_sync) and the FAT decoder
(read_fat12/16/32, ufat_read_fat), together with theorems settling the
specification claims about them.

Modelling conventions:
  - C machine integers become Nat, with explicit reduction mod 2^32 where
    32-bit wraparound matters (sequence numbers, the num_clusters
    subtraction chain).
  - C byte buffers become functions Nat -> Nat (byte at offset); reads
    reduce each byte mod 256, modelling uint8_t storage.
  - The fixed array uf->cache_desc becomes a function Nat -> CacheSlot
    plus the cache_size bound; all code only touches indices < cache_size.
  - The external device adapter is modelled by a read map
    (Nat -> Option bytes, none = read failure) and a write-success map
    (Nat -> Bool).  Per the spec error taxonomy a failed device operation
    surfaces as the IO error, embedded as the code errIo; the source
    propagates the device drivers own negative code, which the spec
    classifies as IO.
  - Functions that fill a C out-parameter return an Option for it
    (none = the out-parameter was not written).
  - Device writes performed by an operation are additionally returned as
    a trace (list of block addresses passed to dev->write), so that
    theorems can talk about which blocks an operation writes.
-/

/-- Modelled from the spec: the error enum of ufat.h (absent from src/);
spec section 6 fixes the order OK, IO, BLOCK_SIZE, INVALID_BPB,
BLOCK_ALIGNMENT, INVALID_CLUSTER, ... and that functions return the
negation of the code on failure. -/
def errIo : Int := 1

/-- Modelled from the spec: UFAT_ERR_BLOCK_SIZE, third member of the enum. -/
def errBlockSize : Int := 2

/-- Modelled from the spec: UFAT_ERR_INVALID_BPB. -/
def errInvalidBpb : Int := 3

/-- Modelled from the spec: UFAT_ERR_BLOCK_ALIGNMENT. -/
def errBlockAlignment : Int := 4

/-- Modelled from the spec: UFAT_ERR_INVALID_CLUSTER. -/
def errInvalidCluster : Int := 5

/-- Modelled from the spec: UFAT_CLUSTER_MASK = 0x0FFFFFFF (spec section 6
tunables). -/
def UFAT_CLUSTER_MASK : Nat := 0x0fffffff

/-- Modelled from the spec: UFAT_DIRENT_SIZE = 32 (spec section 6 tunables). -/
def UFAT_DIRENT_SIZE : Nat := 32

/-- Modelled from the spec: the EOC sentinel of ufat.h (absent from src/).
The spec fixes it only as a sentinel distinct from every 28-bit cluster
number; the conventional encoding 0xFFFFFFFF is used. -/
def UFAT_CLUSTER_EOC : Nat := 0xffffffff

/-- Modelled from the spec: the BAD sentinel of ufat.h (absent from src/),
distinct from EOC and from every 28-bit cluster number. -/
def UFAT_CLUSTER_BAD : Nat := 0xfffffff7

/-- 2^32, the modulus of the 32-bit unsigned arithmetic in the source. -/
def U32 : Nat := 4294967296

/-- 32-bit unsigned subtraction: (a - b) mod 2^32. -/
def usub32 (a b : Nat) : Nat := (a + (U32 - b % U32)) % U32

/-- A byte buffer: byte value at each offset. -/
abbrev Bytes := Nat → Nat

/-- Modelled from the spec: r16 of ufat_internal.h (absent from src/);
spec section 4.3 specifies little-endian 16-bit field decoding. -/
def r16 (b : Bytes) (off : Nat) : Nat :=
  b off % 256 + b (off + 1) % 256 * 256

/-- Modelled from the spec: r32 of ufat_internal.h (absent from src/);
little-endian 32-bit field decoding. -/
def r32 (b : Bytes) (off : Nat) : Nat :=
  b off % 256 + b (off + 1) % 256 * 256 +
    b (off + 2) % 256 * 65536 + b (off + 3) % 256 * 16777216

/-- The filesystem type enum ufat_fat_type. -/
inductive FatType where
  | FAT12
  | FAT16
  | FAT32
deriving DecidableEq

/-- struct ufat_bpb: the geometry record filled in by parse_bpb. -/
structure UfatBpb where
  type : FatType
  log2_blocks_per_cluster : Nat
  fat_start : Nat
  fat_size : Nat
  fat_count : Nat
  root_size : Nat
  root_start : Nat
  cluster_start : Nat
  root_cluster : Nat
  num_clusters : Nat
deriving DecidableEq

/-- The all-zero geometry record (the C field is uninitialized until
parse_bpb succeeds; no claim observes it before that). -/
def UfatBpb.zero : UfatBpb :=
  ⟨.FAT12, 0, 0, 0, 0, 0, 0, 0, 0, 0⟩

/-- struct ufat_stat: the statistics counters. -/
structure UfatStat where
  read : Nat
  read_blocks : Nat
  write : Nat
  write_blocks : Nat
  cache_hit : Nat
  cache_miss : Nat
deriving DecidableEq

/-- The zeroed statistics record (memset in ufat_open). -/
def UfatStat.zero : UfatStat := ⟨0, 0, 0, 0, 0, 0⟩

/-- One cache slot: struct ufat_cache_desc (the PRESENT and DIRTY bits of
the flags word become two Bools) together with its data buffer
(uf->cache_data block). -/
structure CacheSlot where
  present : Bool
  dirty : Bool
  index : Nat
  seq : Nat
  data : Bytes

/-- A slot as left by the memset in ufat_open: all descriptor fields zero. -/
def CacheSlot.empty : CacheSlot :=
  ⟨false, false, 0, 0, fun _ => 0⟩

/-- struct ufat: device adapter, geometry, cache and statistics.  The
device is embedded as its block-size attribute, a read map and a
write-success map. -/
structure Ufat where
  log2_block_size : Nat
  devRead : Nat → Option Bytes
  devWrite : Nat → Bool
  bpb : UfatBpb
  cache_size : Nat
  next_seq : Nat
  slot : Nat → CacheSlot
  stat : UfatStat

/-- cache_flush (ufat.c lines 25-60).  Returns the C result, the new
volume state and the trace of block addresses passed to dev->write.
Note on the mirror loop (lines 40-56): the C advances a local variable b
by fat_size on each iteration but passes d->index, not b, to dev->write,
so every mirror write targets the primary block address; the statistics
are bumped once per mirror iteration and the mirror writes success or
failure is ignored. -/
def cache_flush (uf : Ufat) (ci : Nat) : Int × Ufat × List Nat :=
  let d := uf.slot ci
  if ¬(d.dirty = true ∧ d.present = true) then (0, uf, [])
  else if uf.devWrite d.index = false then (-errIo, uf, [d.index])
  else
    let mirrors :=
      if uf.bpb.fat_start ≤ d.index ∧ d.index < uf.bpb.fat_start + uf.bpb.fat_size
      then uf.bpb.fat_count - 1 else 0
    (0,
     { uf with
       slot := fun j => if j = ci then { uf.slot j with dirty := false } else uf.slot j,
       stat := { uf.stat with
                 write := uf.stat.write + 1 + mirrors,
                 write_blocks := uf.stat.write_blocks + 1 + mirrors } },
     d.index :: List.replicate mirrors d.index)

/-- Result of the scan loop of ufat_cache_open (lines 76-94): either a
hit at a slot index, or a miss carrying the last free slot seen and the
first oldest slot (index, age) seen. -/
inductive ScanResult where
  | hit (i : Nat)
  | miss (free : Option Nat) (oldest : Option (Nat × Nat))
deriving DecidableEq

/-- The scan loop body, iterating over the n slots starting at index i.
age is the unsigned 32-bit difference next_seq - seq; oldest is updated
exactly when the C condition (oldest < 0 || age > oldest_age) holds. -/
def scanAux (uf : Ufat) (blk : Nat) :
    Nat → Nat → Option Nat → Option (Nat × Nat) → ScanResult
  | 0, _, free, oldest => .miss free oldest
  | n + 1, i, free, oldest =>
    if (uf.slot i).present = true ∧ (uf.slot i).index = blk then .hit i
    else
      scanAux uf blk n (i + 1)
        (if (uf.slot i).present = false then some i else free)
        (match oldest with
         | none => some (i, usub32 uf.next_seq (uf.slot i).seq)
         | some (oi, oa) =>
           if usub32 uf.next_seq (uf.slot i).seq > oa then
             some (i, usub32 uf.next_seq (uf.slot i).seq)
           else some (oi, oa))

/-- The full scan of ufat_cache_open over all cache_size slots. -/
def scan (uf : Ufat) (blk : Nat) : ScanResult :=
  scanAux uf blk uf.cache_size 0 none none

/-- The read-in tail of ufat_cache_open (lines 107-124): read the block
from the device into slot i; on failure clear the slots flags and
propagate; on success install the block and bump cache_miss, read,
read_blocks. -/
def readIn (uf : Ufat) (i blk : Nat) : Int × Ufat × List Nat :=
  match uf.devRead blk with
  | none =>
    (-errIo,
     { uf with slot := fun j =>
         if j = i then { uf.slot j with present := false, dirty := false }
         else uf.slot j },
     [])
  | some bs =>
    ((i : Int),
     { uf with
       slot := fun j =>
         if j = i then ⟨true, false, blk, uf.next_seq, bs⟩ else uf.slot j,
       next_seq := (uf.next_seq + 1) % U32,
       stat := { uf.stat with
                 cache_miss := uf.stat.cache_miss + 1,
                 read := uf.stat.read + 1,
                 read_blocks := uf.stat.read_blocks + 1 } },
     [])

/-- The victim index used when no free slot exists: the oldest slot
found by the scan (the C int oldest; -1 never survives the scan when
cache_size is at least 1). -/
def oldestIdx : Option (Nat × Nat) → Nat
  | none => 0
  | some p => p.1

/-- ufat_cache_open (ufat.c lines 62-125). -/
def ufat_cache_open (uf : Ufat) (blk : Nat) : Int × Ufat × List Nat :=
  match scan uf blk with
  | .hit i =>
    ((i : Int),
     { uf with
       slot := fun j =>
         if j = i then { uf.slot j with seq := uf.next_seq } else uf.slot j,
       next_seq := (uf.next_seq + 1) % U32,
       stat := { uf.stat with cache_hit := uf.stat.cache_hit + 1 } },
     [])
  | .miss free oldest =>
    match free with
    | some f => readIn uf f blk
    | none =>
      let o := oldestIdx oldest
      let fr := cache_flush uf o
      if fr.1 < 0 then fr
      else
        let r := readIn fr.2.1 o blk
        (r.1, r.2.1, fr.2.2 ++ r.2.2)

/-- The loop of log2_exact (ufat.c lines 127-144), with an explicit fuel
argument; the loop halves e each iteration, so fuel e suffices for any
e reached from log2_exact. -/
def log2_loop : Nat → Nat → Nat → Option Nat
  | _, 0, _ => none
  | _, 1, count => some count
  | 0, _, _ => none
  | fuel + 1, e, count =>
    if e % 2 = 1 then none else log2_loop fuel (e / 2) (count + 1)

/-- log2_exact: some k when e = 2^k, none otherwise (including e = 0). -/
def log2_exact (e : Nat) : Option Nat :=
  if e = 0 then none else log2_loop e e 0

/-- parse_bpb (ufat.c lines 146-232): validate the boot sector and derive
the geometry record, or fail with the negated error code.  The
num_clusters subtraction chain is performed in 32-bit unsigned
arithmetic exactly as in the C (all operands promoted to uint32_t),
hence the usub32 wrapping. -/
def parse_bpb (log2_bytes_per_block : Nat) (bpb : Bytes) : Except Int UfatBpb :=
  let bytes_per_sector := r16 bpb 0x00b
  let sectors_per_cluster := bpb 0x00d % 256
  let reserved_sector_count := r16 bpb 0x00e
  let root_entries := r16 bpb 0x011
  let number_of_fats := bpb 0x010 % 256
  let root_cluster := r32 bpb 0x02c
  let root_sectors :=
    (root_entries * UFAT_DIRENT_SIZE + bytes_per_sector - 1) / bytes_per_sector
  if log2_bytes_per_block < 9 then .error (-errBlockSize)
  else
    let total_logical_sectors :=
      if r16 bpb 0x013 = 0 then r32 bpb 0x020 else r16 bpb 0x013
    let sectors_per_fat :=
      if r16 bpb 0x016 = 0 then r32 bpb 0x024 else r16 bpb 0x016
    match log2_exact bytes_per_sector, log2_exact sectors_per_cluster with
    | some log2_bytes_per_sector, some log2_sectors_per_cluster =>
      if r16 bpb 0x1fe ≠ 0xaa55 then .error (-errInvalidBpb)
      else
        let conv : Except Int (Nat × Nat × Nat × Nat) :=
          if log2_bytes_per_block > log2_bytes_per_sector then
            let shift := log2_bytes_per_block - log2_bytes_per_sector
            if log2_sectors_per_cluster < shift then .error (-errBlockAlignment)
            else if (reserved_sector_count ||| sectors_per_fat ||| root_sectors)
                      &&& (2 ^ shift - 1) ≠ 0 then .error (-errBlockAlignment)
            else .ok (log2_sectors_per_cluster - shift,
                      reserved_sector_count >>> shift,
                      sectors_per_fat >>> shift,
                      root_sectors >>> shift)
          else
            let shift := log2_bytes_per_sector - log2_bytes_per_block
            .ok (log2_sectors_per_cluster + shift,
                 reserved_sector_count <<< shift,
                 sectors_per_fat <<< shift,
                 root_sectors <<< shift)
        match conv with
        | .error e => .error e
        | .ok (l2bpc, fat_start, fat_size, root_size) =>
          if number_of_fats = 0 then .error (-errInvalidBpb)
          else
            let num_clusters :=
              ((usub32 (usub32 (usub32 total_logical_sectors reserved_sector_count)
                         (sectors_per_fat * number_of_fats % U32))
                  root_sectors >>> log2_sectors_per_cluster) + 2) % U32
            let root_start := fat_start + fat_size * number_of_fats
            .ok { type := if root_sectors = 0 then .FAT32
                          else if num_clusters < 4085 then .FAT12 else .FAT16
                  log2_blocks_per_cluster := l2bpc
                  fat_start := fat_start
                  fat_size := fat_size
                  fat_count := number_of_fats
                  root_size := root_size
                  root_start := root_start
                  cluster_start := root_start + root_size
                  root_cluster :=
                    if root_sectors = 0 then root_cluster &&& UFAT_CLUSTER_MASK else 0
                  num_clusters := num_clusters }
    | _, _ => .error (-errInvalidBpb)

/-- ufat_open (ufat.c lines 246-263) together with read_bpb (lines
234-244).  UFAT_CACHE_BYTES and UFAT_CACHE_MAX_BLOCKS are compile-time
tunables of ufat.h (absent from src/; the spec section 6 leaves their
values open), so they are parameters here. -/
def ufat_open (cacheBytes maxBlocks : Nat) (l2bs : Nat)
    (devRead : Nat → Option Bytes) (devWrite : Nat → Bool) : Int × Ufat :=
  let cs0 := cacheBytes >>> l2bs
  let cs := if cs0 > maxBlocks then maxBlocks else cs0
  let uf : Ufat :=
    { log2_block_size := l2bs, devRead := devRead, devWrite := devWrite,
      bpb := UfatBpb.zero, cache_size := cs, next_seq := 0,
      slot := fun _ => CacheSlot.empty, stat := UfatStat.zero }
  if cs = 0 then (-errBlockSize, uf)
  else
    let r := ufat_cache_open uf 0
    if r.1 < 0 then (r.1, r.2.1)
    else
      match parse_bpb l2bs ((r.2.1.slot r.1.toNat).data) with
      | .error e => (e, r.2.1)
      | .ok b => (0, { r.2.1 with bpb := b })

/-- The loop of ufat_sync (ufat.c lines 270-275): flush slots i, i+1, ...
(n remaining), threading the state, concatenating the write traces and
recording the last non-zero flush error in ret exactly as the local
variable ret does in the C. -/
def syncLoop : Ufat → Int → Nat → Nat → Int × Ufat × List Nat
  | uf, ret, 0, _ => (ret, uf, [])
  | uf, ret, n + 1, i =>
    let f := cache_flush uf i
    let r := syncLoop f.2.1 (if f.1 ≠ 0 then f.1 else ret) n (i + 1)
    (r.1, r.2.1, f.2.2 ++ r.2.2)

/-- ufat_sync (ufat.c lines 265-278).  The loop collects the last
non-zero error in its local ret, but the function returns the literal 0
(line 277), discarding ret. -/
def ufat_sync (uf : Ufat) : Int × Ufat × List Nat :=
  let r := syncLoop uf 0 uf.cache_size 0
  (0, r.2.1, r.2.2)

/-- read_fat12 (ufat.c lines 309-314): an unimplemented stub that
returns the literal -1 and never touches the out-parameter or the
state. -/
def read_fat12 (uf : Ufat) (_index : Nat) : Int × Option Nat × Ufat × List Nat :=
  (-1, none, uf, [])

/-- The FAT16 entry decode of read_fat16 (ufat.c lines 330-341): raw
16-bit entry value to out-parameter value. -/
def fat16_decode (raw : Nat) : Nat :=
  if raw ≥ 0xfff8 then UFAT_CLUSTER_EOC
  else if raw ≥ 0xfff0 then UFAT_CLUSTER_BAD
  else raw

/-- read_fat16 (ufat.c lines 316-342): locate the FAT block holding the
2-byte entry, fetch it through the cache, decode.  Returns (status,
out-parameter, state, write trace). -/
def read_fat16 (uf : Ufat) (index : Nat) : Int × Option Nat × Ufat × List Nat :=
  let shift := uf.log2_block_size - 1
  let b := index >>> shift
  let r := index &&& (2 ^ shift - 1)
  let c := ufat_cache_open uf (uf.bpb.fat_start + b)
  if c.1 < 0 then (c.1, none, c.2.1, c.2.2)
  else
    let raw := r16 ((c.2.1.slot c.1.toNat).data) (r * 2)
    (0, some (fat16_decode raw), c.2.1, c.2.2)

/-- The FAT32 entry decode of read_fat32 (ufat.c lines 356-369): the raw
32-bit entry is first masked with UFAT_CLUSTER_MASK, then compared
against the terminal thresholds. -/
def fat32_decode (raw32 : Nat) : Nat :=
  let raw := raw32 &&& UFAT_CLUSTER_MASK
  if raw ≥ 0xffffff8 then UFAT_CLUSTER_EOC
  else if raw ≥ 0xffffff0 then UFAT_CLUSTER_BAD
  else raw

/-- read_fat32 (ufat.c lines 344-370). -/
def read_fat32 (uf : Ufat) (index : Nat) : Int × Option Nat × Ufat × List Nat :=
  let shift := uf.log2_block_size - 2
  let b := index >>> shift
  let r := index &&& (2 ^ shift - 1)
  let c := ufat_cache_open uf (uf.bpb.fat_start + b)
  if c.1 < 0 then (c.1, none, c.2.1, c.2.2)
  else
    let raw := r32 ((c.2.1.slot c.1.toNat).data) (r * 4)
    (0, some (fat32_decode raw), c.2.1, c.2.2)

/-- ufat_read_fat (ufat.c lines 372-384): range-check the cluster index,
then dispatch on the filesystem type. -/
def ufat_read_fat (uf : Ufat) (index : Nat) : Int × Option Nat × Ufat × List Nat :=
  if index ≥ uf.bpb.num_clusters then (-errInvalidCluster, none, uf, [])
  else
    match uf.bpb.type with
    | .FAT12 => read_fat12 uf index
    | .FAT16 => read_fat16 uf index
    | .FAT32 => read_fat32 uf index

/-- Run a sequence of ufat_cache_open calls, returning the final state. -/
def runOpens (uf : Ufat) : List Nat → Ufat
  | [] => uf
  | b :: rest => runOpens (ufat_cache_open uf b).2.1 rest

/-- Run a sequence of ufat_cache_open calls, returning each calls C
result in order. -/
def runResults (uf : Ufat) : List Nat → List Int
  | [] => []
  | b :: rest =>
    (ufat_cache_open uf b).1 :: runResults (ufat_cache_open uf b).2.1 rest

/-- The number of results in a list that report success: a non-negative
value (cache_open returns the slot index on success, a negative error
code on failure). -/
def successCount : List Int → Nat
  | [] => 0
  | r :: rest => (if 0 ≤ r then 1 else 0) + successCount rest

/-- Cache distinctness: no two PRESENT slots (within the cache bound)
carry the same block index. -/
def goodCache (uf : Ufat) : Prop :=
  ∀ j, j < uf.cache_size → ∀ k, k < uf.cache_size → j ≠ k →
    (uf.slot j).present = true → (uf.slot k).present = true →
    (uf.slot j).index ≠ (uf.slot k).index

/-- Block b is PRESENT in some cache slot. -/
def blockPresent (uf : Ufat) (b : Nat) : Prop :=
  ∃ j, j < uf.cache_size ∧ (uf.slot j).present = true ∧ (uf.slot j).index = b

/-- The number of PRESENT slots (hence of distinct present block
indices, given goodCache). -/
def presentCount (uf : Ufat) : Nat :=
  ((List.range uf.cache_size).filter fun j => (uf.slot j).present).length

instance (uf : Ufat) (b : Nat) : Decidable (blockPresent uf b) := by
  unfold blockPresent; infer_instance

instance (uf : Ufat) : Decidable (goodCache uf) := by
  unfold goodCache; exact Nat.decidableBallLT _ _

/-- A mounted-volume skeleton used for concrete runs: given geometry,
cache size and device maps, the state right after mount (zero
statistics, zero sequence counter, all slots empty). -/
def mkUfat (l2bs : Nat) (bpb : UfatBpb) (cs : Nat)
    (devRead : Nat → Option Bytes) (devWrite : Nat → Bool) : Ufat :=
  { log2_block_size := l2bs, devRead := devRead, devWrite := devWrite,
    bpb := bpb, cache_size := cs, next_seq := 0,
    slot := fun _ => CacheSlot.empty, stat := UfatStat.zero }

/-- The scenario-S1 boot sector: bytes_per_sector 512, sectors_per_cluster
4, reserved 4, 2 FATs, 64 sectors per FAT, 512 root entries, 65536 total
sectors (in the 32-bit field, the 16-bit field being too small for
65536), valid signature. -/
def bootS1 : Bytes := fun off =>
  if off = 0x00c then 2
  else if off = 0x00d then 4
  else if off = 0x00e then 4
  else if off = 0x010 then 2
  else if off = 0x012 then 2
  else if off = 0x016 then 64
  else if off = 0x022 then 1
  else if off = 0x1fe then 0x55
  else if off = 0x1ff then 0xaa
  else 0

/-- A boot sector that passes every parse_bpb check yet whose total
sector count (4) is smaller than reserved (1) + FATs (2 * 10) + root
sectors (1): bytes_per_sector 512, sectors_per_cluster 1, 16 root
entries, valid signature. -/
def bootShort : Bytes := fun off =>
  if off = 0x00c then 2
  else if off = 0x00d then 1
  else if off = 0x00e then 1
  else if off = 0x010 then 2
  else if off = 0x011 then 16
  else if off = 0x013 then 4
  else if off = 0x016 then 10
  else if off = 0x1fe then 0x55
  else if off = 0x1ff then 0xaa
  else 0

/-- A FAT block whose 32-bit entry for cluster 7 (byte offset 28) is
0xF000ABCD, little-endian (scenario S5). -/
def fatBlkS5 : Bytes := fun off =>
  if off = 28 then 0xcd else if off = 29 then 0xab
  else if off = 30 then 0 else if off = 31 then 0xf0 else 0

/-- FAT32 geometry for the S5 run: FAT at block 1, 100 clusters. -/
def bpbS5 : UfatBpb :=
  ⟨.FAT32, 0, 1, 8, 2, 0, 17, 17, 2, 100⟩

/-- The S5 volume: 512-byte blocks, one cache slot, the FAT block above. -/
def ufS5 : Ufat :=
  mkUfat 9 bpbS5 1 (fun b => if b = 1 then some fatBlkS5 else none)
    (fun _ => true)

/-- A FAT block whose 16-bit entry for cluster 5 (byte offset 10) is the
given value (scenario S4). -/
def fatBlkS4 (entry : Nat) : Bytes := fun off =>
  if off = 10 then entry % 256 else if off = 11 then entry / 256 % 256 else 0

/-- FAT16 geometry for the S4 runs: FAT at block 1, 5000 clusters. -/
def bpbS4 : UfatBpb :=
  ⟨.FAT16, 0, 1, 20, 2, 32, 41, 73, 0, 5000⟩

/-- The S4 volume holding the given 16-bit entry for cluster 5. -/
def ufS4 (entry : Nat) : Ufat :=
  mkUfat 9 bpbS4 1 (fun b => if b = 1 then some (fatBlkS4 entry) else none)
    (fun _ => true)

/-- A volume with a dirty PRESENT slot whose block 10 is the first FAT
block (fat_start 10, fat_size 5, fat_count 3), an always-succeeding
device write: the input on which the mirror writes of cache_flush are
observed. -/
def ufMirror : Ufat :=
  { mkUfat 9 ⟨.FAT16, 0, 10, 5, 3, 2, 25, 27, 0, 5000⟩ 1
      (fun _ => none) (fun _ => true) with
    slot := fun _ => ⟨true, true, 10, 0, fun _ => 0⟩ }

/-- A two-slot volume with dirty PRESENT slots for blocks 5 and 6 where
the device write fails for block 5 and succeeds for block 6: the input
on which ufat_sync observes a flush error. -/
def ufSyncErr : Ufat :=
  { mkUfat 9 UfatBpb.zero 2 (fun _ => none) (fun b => b ≠ 5) with
    slot := fun j => if j = 0 then ⟨true, true, 5, 0, fun _ => 0⟩
                     else ⟨true, true, 6, 0, fun _ => 0⟩ }

/-- A one-slot empty-cache volume whose device read always fails: the
input on which a cache_open call leaves the requested block absent and
the hit/miss counters untouched. -/
def ufReadFail : Ufat :=
  mkUfat 9 UfatBpb.zero 1 (fun _ => none) (fun _ => true)

/-- A one-slot empty-cache volume with an always-succeeding device. -/
def ufSmall : Ufat :=
  mkUfat 9 UfatBpb.zero 1 (fun _ => some fun _ => 0) (fun _ => true)

/-- A FAT12-typed volume (10 clusters) used to witness the FAT12 stub
behaviour. -/
def ufF12 : Ufat :=
  mkUfat 9 ⟨.FAT12, 0, 1, 1, 2, 1, 3, 4, 0, 10⟩ 1
    (fun _ => some fun _ => 0) (fun _ => true)

/-- The scenario-S1 device: block 0 holds the boot sector bootS1. -/
def devS1 : Nat → Option Bytes := fun b => if b = 0 then some bootS1 else none

/-! ### Lemmas about the scan loop -/

theorem scanAux_hit_spec (uf : Ufat) (blk : Nat) :
    ∀ n i free oldest h, scanAux uf blk n i free oldest = .hit h →
      i ≤ h ∧ h < i + n ∧ (uf.slot h).present = true ∧ (uf.slot h).index = blk := by
  intro n
  induction n with
  | zero => intro i free oldest h hs; simp [scanAux] at hs
  | succ n ih =>
    intro i free oldest h hs
    simp only [scanAux] at hs
    by_cases hc : (uf.slot i).present = true ∧ (uf.slot i).index = blk
    · rw [if_pos hc] at hs
      cases hs
      exact ⟨Nat.le_refl _, by omega, hc.1, hc.2⟩
    · rw [if_neg hc] at hs
      obtain ⟨h1, h2, h3, h4⟩ := ih _ _ _ _ hs
      exact ⟨by omega, by omega, h3, h4⟩

theorem scanAux_miss_not_found (uf : Ufat) (blk : Nat) :
    ∀ n i free oldest f o, scanAux uf blk n i free oldest = .miss f o →
      ∀ j, i ≤ j → j < i + n →
        ¬((uf.slot j).present = true ∧ (uf.slot j).index = blk) := by
  intro n
  induction n with
  | zero => intro i free oldest f o _ j hj1 hj2; omega
  | succ n ih =>
    intro i free oldest f o hs j hj1 hj2
    simp only [scanAux] at hs
    by_cases hc : (uf.slot i).present = true ∧ (uf.slot i).index = blk
    · rw [if_pos hc] at hs; cases hs
    · rw [if_neg hc] at hs
      rcases Nat.eq_or_lt_of_le hj1 with rfl | hlt
      · exact hc
      · exact ih _ _ _ _ _ hs j hlt (by omega)

theorem scanAux_miss_bounds (uf : Ufat) (blk : Nat) :
    ∀ n i free oldest f o,
      (∀ x, free = some x → x < i) → (∀ p, oldest = some p → p.1 < i) →
      scanAux uf blk n i free oldest = .miss f o →
      (∀ x, f = some x → x < i + n) ∧ (∀ p, o = some p → p.1 < i + n) := by
  intro n
  induction n with
  | zero =>
    intro i free oldest f o hf ho hs
    simp only [scanAux] at hs
    cases hs
    exact ⟨fun x hx => by have := hf x hx; omega,
           fun p hp => by have := ho p hp; omega⟩
  | succ n ih =>
    intro i free oldest f o hf ho hs
    simp only [scanAux] at hs
    by_cases hc : (uf.slot i).present = true ∧ (uf.slot i).index = blk
    · rw [if_pos hc] at hs; cases hs
    · rw [if_neg hc] at hs
      have hf' : ∀ x, (if (uf.slot i).present = false then some i else free) =
          some x → x < i + 1 := by
        intro x hx
        split at hx
        · cases hx; omega
        · have := hf x hx; omega
      rcases oldest with _ | ⟨oi, oa⟩
      · have ho' : ∀ p : Nat × Nat,
            (some (i, usub32 uf.next_seq (uf.slot i).seq) : Option (Nat × Nat)) =
              some p → p.1 < i + 1 := by
          intro p hp; cases hp; simp
        have hstep := ih (i + 1) _ _ f o hf' ho' hs
        exact ⟨fun x hx => by have := hstep.1 x hx; omega,
               fun p hp => by have := hstep.2 p hp; omega⟩
      · have ho' : ∀ p : Nat × Nat,
            (if usub32 uf.next_seq (uf.slot i).seq > oa then
               some (i, usub32 uf.next_seq (uf.slot i).seq)
             else some (oi, oa)) = some p → p.1 < i + 1 := by
          intro p hp
          have hoi : oi < i := ho (oi, oa) rfl
          split at hp <;> cases hp
          · simp
          · simpa using Nat.lt_succ_of_lt hoi
        have hstep := ih (i + 1) _ _ f o hf' ho' hs
        exact ⟨fun x hx => by have := hstep.1 x hx; omega,
               fun p hp => by have := hstep.2 p hp; omega⟩

theorem scanAux_miss_oldest_some (uf : Ufat) (blk : Nat) :
    ∀ n i free oldest f o, (0 < n ∨ oldest ≠ none) →
      scanAux uf blk n i free oldest = .miss f o → o ≠ none := by
  intro n
  induction n with
  | zero =>
    intro i free oldest f o hno hs
    simp only [scanAux] at hs
    cases hs
    rcases hno with h | h
    · omega
    · exact h
  | succ n ih =>
    intro i free oldest f o _ hs
    simp only [scanAux] at hs
    by_cases hc : (uf.slot i).present = true ∧ (uf.slot i).index = blk
    · rw [if_pos hc] at hs; cases hs
    · rw [if_neg hc] at hs
      refine ih _ _ _ _ _ (Or.inr ?_) hs
      rcases oldest with _ | ⟨oi, oa⟩
      · simp
      · simp only []
        split <;> simp

theorem scan_hit_spec {uf : Ufat} {blk h : Nat} (hs : scan uf blk = .hit h) :
    h < uf.cache_size ∧ (uf.slot h).present = true ∧ (uf.slot h).index = blk := by
  obtain ⟨_, h2, h3, h4⟩ := scanAux_hit_spec uf blk _ _ _ _ _ hs
  exact ⟨by omega, h3, h4⟩

theorem scan_miss_not_found {uf : Ufat} {blk : Nat} {f : Option Nat}
    {o : Option (Nat × Nat)} (hs : scan uf blk = .miss f o) :
    ∀ j, j < uf.cache_size →
      ¬((uf.slot j).present = true ∧ (uf.slot j).index = blk) := by
  intro j hj
  exact scanAux_miss_not_found uf blk _ _ _ _ _ _ hs j (Nat.zero_le _) (by omega)

theorem scan_miss_bounds {uf : Ufat} {blk : Nat} {f : Option Nat}
    {o : Option (Nat × Nat)} (hs : scan uf blk = .miss f o) :
    (∀ x, f = some x → x < uf.cache_size) ∧
    (∀ p, o = some p → p.1 < uf.cache_size) := by
  have := scanAux_miss_bounds uf blk _ 0 none none f o
    (by intro x hx; cases hx) (by intro p hp; cases hp) hs
  exact ⟨fun x hx => by have := this.1 x hx; omega,
         fun p hp => by have := this.2 p hp; omega⟩

theorem scan_miss_oldest_some {uf : Ufat} {blk : Nat} {f : Option Nat}
    {o : Option (Nat × Nat)} (hcs : 0 < uf.cache_size)
    (hs : scan uf blk = .miss f o) : o ≠ none :=
  scanAux_miss_oldest_some uf blk _ _ _ _ _ _ (Or.inl hcs) hs


/-! ### Branch equations for ufat_cache_open and its pieces -/

theorem readIn_none_res {uf : Ufat} {i blk : Nat} (hr : uf.devRead blk = none) :
    (readIn uf i blk).1 = -errIo := by
  unfold readIn; rw [hr]

theorem readIn_none_state {uf : Ufat} {i blk : Nat} (hr : uf.devRead blk = none) :
    (readIn uf i blk).2.1 =
      { uf with slot := fun j =>
          if j = i then { uf.slot j with present := false, dirty := false }
          else uf.slot j } := by
  unfold readIn; rw [hr]

theorem readIn_some_res {uf : Ufat} {i blk : Nat} {bs : Bytes}
    (hr : uf.devRead blk = some bs) : (readIn uf i blk).1 = (i : Int) := by
  unfold readIn; rw [hr]

theorem readIn_some_state {uf : Ufat} {i blk : Nat} {bs : Bytes}
    (hr : uf.devRead blk = some bs) :
    (readIn uf i blk).2.1 =
      { uf with
        slot := fun j =>
          if j = i then ⟨true, false, blk, uf.next_seq, bs⟩ else uf.slot j,
        next_seq := (uf.next_seq + 1) % U32,
        stat := { uf.stat with
                  cache_miss := uf.stat.cache_miss + 1,
                  read := uf.stat.read + 1,
                  read_blocks := uf.stat.read_blocks + 1 } } := by
  unfold readIn; rw [hr]

theorem cache_open_hit_res {uf : Ufat} {blk i : Nat} (hs : scan uf blk = .hit i) :
    (ufat_cache_open uf blk).1 = (i : Int) := by
  unfold ufat_cache_open; rw [hs]

theorem cache_open_hit_state {uf : Ufat} {blk i : Nat} (hs : scan uf blk = .hit i) :
    (ufat_cache_open uf blk).2.1 =
      { uf with
        slot := fun j =>
          if j = i then { uf.slot j with seq := uf.next_seq } else uf.slot j,
        next_seq := (uf.next_seq + 1) % U32,
        stat := { uf.stat with cache_hit := uf.stat.cache_hit + 1 } } := by
  unfold ufat_cache_open; rw [hs]

theorem cache_open_eq_free {uf : Ufat} {blk f : Nat} {o : Option (Nat × Nat)}
    (hs : scan uf blk = .miss (some f) o) :
    ufat_cache_open uf blk = readIn uf f blk := by
  unfold ufat_cache_open; rw [hs]

theorem cache_open_eq_evict_err {uf : Ufat} {blk : Nat} {o : Option (Nat × Nat)}
    (hs : scan uf blk = .miss none o)
    (he : (cache_flush uf (oldestIdx o)).1 < 0) :
    ufat_cache_open uf blk = cache_flush uf (oldestIdx o) := by
  unfold ufat_cache_open; rw [hs]; simp only [if_pos he]

theorem cache_open_evict_res {uf : Ufat} {blk : Nat} {o : Option (Nat × Nat)}
    (hs : scan uf blk = .miss none o)
    (he : ¬(cache_flush uf (oldestIdx o)).1 < 0) :
    (ufat_cache_open uf blk).1 =
      (readIn (cache_flush uf (oldestIdx o)).2.1 (oldestIdx o) blk).1 := by
  unfold ufat_cache_open; rw [hs]; simp only [if_neg he]

theorem cache_open_evict_state {uf : Ufat} {blk : Nat} {o : Option (Nat × Nat)}
    (hs : scan uf blk = .miss none o)
    (he : ¬(cache_flush uf (oldestIdx o)).1 < 0) :
    (ufat_cache_open uf blk).2.1 =
      (readIn (cache_flush uf (oldestIdx o)).2.1 (oldestIdx o) blk).2.1 := by
  unfold ufat_cache_open; rw [hs]; simp only [if_neg he]

theorem cache_open_evict_trace {uf : Ufat} {blk : Nat} {o : Option (Nat × Nat)}
    (hs : scan uf blk = .miss none o)
    (he : ¬(cache_flush uf (oldestIdx o)).1 < 0) :
    (ufat_cache_open uf blk).2.2 =
      (cache_flush uf (oldestIdx o)).2.2 ++
        (readIn (cache_flush uf (oldestIdx o)).2.1 (oldestIdx o) blk).2.2 := by
  unfold ufat_cache_open; rw [hs]; simp only [if_neg he]

/-! ### Field-preservation lemmas -/

theorem cache_flush_preserves (uf : Ufat) (ci : Nat) :
    (cache_flush uf ci).2.1.cache_size = uf.cache_size ∧
    (cache_flush uf ci).2.1.next_seq = uf.next_seq ∧
    (cache_flush uf ci).2.1.devRead = uf.devRead ∧
    (cache_flush uf ci).2.1.stat.cache_hit = uf.stat.cache_hit ∧
    (cache_flush uf ci).2.1.stat.cache_miss = uf.stat.cache_miss ∧
    ∀ j, ((cache_flush uf ci).2.1.slot j).present = (uf.slot j).present ∧
         ((cache_flush uf ci).2.1.slot j).index = (uf.slot j).index := by
  simp only [cache_flush]
  split
  · exact ⟨rfl, rfl, rfl, rfl, rfl, fun j => ⟨rfl, rfl⟩⟩
  · split
    · exact ⟨rfl, rfl, rfl, rfl, rfl, fun j => ⟨rfl, rfl⟩⟩
    · refine ⟨rfl, rfl, rfl, rfl, rfl, fun j => ?_⟩
      by_cases hj : j = ci <;> simp [hj]

theorem cache_flush_status (uf : Ufat) (ci : Nat) :
    (cache_flush uf ci).1 = 0 ∨ (cache_flush uf ci).1 = -errIo := by
  simp only [cache_flush]
  split
  · exact Or.inl rfl
  · split
    · exact Or.inr rfl
    · exact Or.inl rfl

/-! ### Distinctness transport lemmas -/

theorem goodCache_transport {uf : Ufat} (hg : goodCache uf) {uf' : Ufat}
    (hs : uf'.cache_size = uf.cache_size)
    (hp : ∀ j, (uf'.slot j).present = true →
      (uf.slot j).present = true ∧ (uf'.slot j).index = (uf.slot j).index) :
    goodCache uf' := by
  intro j hj k hk hjk pj pk
  obtain ⟨pj', ej⟩ := hp j pj
  obtain ⟨pk', ek⟩ := hp k pk
  rw [ej, ek]
  exact hg j (hs ▸ hj) k (hs ▸ hk) hjk pj' pk'

theorem goodCache_install {uf : Ufat} (hg : goodCache uf) {uf' : Ufat} (f blk : Nat)
    (hs : uf'.cache_size = uf.cache_size)
    (hf : (uf'.slot f).index = blk)
    (ho : ∀ j, j ≠ f → (uf'.slot j).present = (uf.slot j).present ∧
                       (uf'.slot j).index = (uf.slot j).index)
    (hnew : ∀ j, j < uf.cache_size →
      ¬((uf.slot j).present = true ∧ (uf.slot j).index = blk)) :
    goodCache uf' := by
  intro j hj k hk hjk pj pk heq
  by_cases hjf : j = f
  · by_cases hkf : k = f
    · exact hjk (hjf.trans hkf.symm)
    · obtain ⟨pk', ek⟩ := ho k hkf
      apply hnew k (hs ▸ hk)
      refine ⟨pk'.symm.trans pk, ?_⟩
      rw [← ek, ← heq, hjf, hf]
  · by_cases hkf : k = f
    · obtain ⟨pj', ej⟩ := ho j hjf
      apply hnew j (hs ▸ hj)
      refine ⟨pj'.symm.trans pj, ?_⟩
      rw [← ej, heq, hkf, hf]
    · obtain ⟨pj', ej⟩ := ho j hjf
      obtain ⟨pk', ek⟩ := ho k hkf
      exact hg j (hs ▸ hj) k (hs ▸ hk) hjk (pj'.symm.trans pj) (pk'.symm.trans pk)
        (by rw [← ej, ← ek]; exact heq)

/-! ### Per-call properties of ufat_cache_open -/

theorem cache_open_size (uf : Ufat) (blk : Nat) :
    (ufat_cache_open uf blk).2.1.cache_size = uf.cache_size := by
  cases hs : scan uf blk with
  | hit i => rw [cache_open_hit_state hs]
  | miss free oldest =>
    cases free with
    | some f =>
      rw [cache_open_eq_free hs]
      cases hr : uf.devRead blk with
      | none => rw [readIn_none_state hr]
      | some bs => rw [readIn_some_state hr]
    | none =>
      by_cases he : (cache_flush uf (oldestIdx oldest)).1 < 0
      · rw [cache_open_eq_evict_err hs he]
        exact (cache_flush_preserves uf _).1
      · rw [cache_open_evict_state hs he]
        have h1 := (cache_flush_preserves uf (oldestIdx oldest)).1
        cases hr : (cache_flush uf (oldestIdx oldest)).2.1.devRead blk with
        | none => rw [readIn_none_state hr]; exact h1
        | some bs => rw [readIn_some_state hr]; exact h1

theorem cache_open_good (uf : Ufat) (blk : Nat) (hg : goodCache uf) :
    goodCache (ufat_cache_open uf blk).2.1 := by
  cases hs : scan uf blk with
  | hit i =>
    rw [cache_open_hit_state hs]
    refine goodCache_transport hg rfl ?_
    intro j pj
    by_cases hj : j = i
    · subst hj
      simp only [if_pos rfl] at pj ⊢
      exact ⟨pj, by trivial⟩
    · simp only [if_neg hj] at pj ⊢
      exact ⟨pj, by trivial⟩
  | miss free oldest =>
    cases free with
    | some f =>
      rw [cache_open_eq_free hs]
      cases hr : uf.devRead blk with
      | none =>
        rw [readIn_none_state hr]
        refine goodCache_transport hg rfl ?_
        intro j pj
        by_cases hj : j = f
        · subst hj; simp at pj
        · simp only [if_neg hj] at pj ⊢
          exact ⟨pj, by trivial⟩
      | some bs =>
        rw [readIn_some_state hr]
        refine goodCache_install hg f blk rfl (by simp) ?_
          (scan_miss_not_found hs)
        intro j hj
        simp only [if_neg hj]
        exact ⟨by trivial, by trivial⟩
    | none =>
      have hpres := cache_flush_preserves uf (oldestIdx oldest)
      have hgA : goodCache (cache_flush uf (oldestIdx oldest)).2.1 := by
        refine goodCache_transport hg hpres.1 ?_
        intro j pj
        have hp := hpres.2.2.2.2.2 j
        exact ⟨hp.1.symm.trans pj, hp.2⟩
      by_cases he : (cache_flush uf (oldestIdx oldest)).1 < 0
      · rw [cache_open_eq_evict_err hs he]
        exact hgA
      · rw [cache_open_evict_state hs he]
        have hnewA : ∀ j, j < (cache_flush uf (oldestIdx oldest)).2.1.cache_size →
            ¬(((cache_flush uf (oldestIdx oldest)).2.1.slot j).present = true ∧
              ((cache_flush uf (oldestIdx oldest)).2.1.slot j).index = blk) := by
          intro j hj hcon
          have hp := hpres.2.2.2.2.2 j
          exact scan_miss_not_found hs j (hpres.1 ▸ hj)
            ⟨hp.1 ▸ hcon.1, hp.2 ▸ hcon.2⟩
        cases hr : (cache_flush uf (oldestIdx oldest)).2.1.devRead blk with
        | none =>
          rw [readIn_none_state hr]
          refine goodCache_transport hgA rfl ?_
          intro j pj
          by_cases hj : j = oldestIdx oldest
          · subst hj; simp at pj
          · simp only [if_neg hj] at pj ⊢
            exact ⟨pj, by trivial⟩
        | some bs =>
          rw [readIn_some_state hr]
          refine goodCache_install hgA (oldestIdx oldest) blk rfl
            (by simp) ?_ hnewA
          intro j hj
          simp only [if_neg hj]
          exact ⟨by trivial, by trivial⟩

theorem cache_open_present (uf : Ufat) (blk : Nat) (hcs : 0 < uf.cache_size)
    (hr0 : 0 ≤ (ufat_cache_open uf blk).1) :
    blockPresent (ufat_cache_open uf blk).2.1 blk := by
  cases hs : scan uf blk with
  | hit i =>
    obtain ⟨hi, hp, hx⟩ := scan_hit_spec hs
    rw [cache_open_hit_state hs]
    exact ⟨i, hi, by simp [hp], by simp [hx]⟩
  | miss free oldest =>
    cases free with
    | some f =>
      have hf : f < uf.cache_size := (scan_miss_bounds hs).1 f rfl
      rw [cache_open_eq_free hs] at hr0 ⊢
      cases hr : uf.devRead blk with
      | none =>
        rw [readIn_none_res hr] at hr0
        exact absurd hr0 (by decide)
      | some bs =>
        rw [readIn_some_state hr]
        exact ⟨f, hf, by simp, by simp⟩
    | none =>
      by_cases he : (cache_flush uf (oldestIdx oldest)).1 < 0
      · rw [cache_open_eq_evict_err hs he] at hr0
        omega
      · obtain ⟨p, hp⟩ := Option.ne_none_iff_exists'.mp
          (scan_miss_oldest_some hcs hs)
        have ho : oldestIdx oldest < uf.cache_size := by
          rw [hp]
          exact (scan_miss_bounds hs).2 p hp
        rw [cache_open_evict_res hs he] at hr0
        rw [cache_open_evict_state hs he]
        have h1 := (cache_flush_preserves uf (oldestIdx oldest)).1
        cases hr : (cache_flush uf (oldestIdx oldest)).2.1.devRead blk with
        | none =>
          rw [readIn_none_res hr] at hr0
          exact absurd hr0 (by decide)
        | some bs =>
          rw [readIn_some_state hr]
          refine ⟨oldestIdx oldest, ?_, by simp, by simp⟩
          show oldestIdx oldest < (cache_flush uf (oldestIdx oldest)).2.1.cache_size
          rw [h1]
          exact ho

theorem cache_open_hitmiss (uf : Ufat) (blk : Nat) :
    (ufat_cache_open uf blk).2.1.stat.cache_hit +
      (ufat_cache_open uf blk).2.1.stat.cache_miss =
    uf.stat.cache_hit + uf.stat.cache_miss +
      (if 0 ≤ (ufat_cache_open uf blk).1 then 1 else 0) := by
  cases hs : scan uf blk with
  | hit i =>
    rw [cache_open_hit_state hs, cache_open_hit_res hs]
    rw [if_pos (Int.natCast_nonneg i)]
    dsimp only
    omega
  | miss free oldest =>
    cases free with
    | some f =>
      rw [cache_open_eq_free hs]
      cases hr : uf.devRead blk with
      | none =>
        rw [readIn_none_state hr, readIn_none_res hr]
        rw [if_neg (by decide)]
        dsimp only
        omega
      | some bs =>
        rw [readIn_some_state hr, readIn_some_res hr]
        rw [if_pos (Int.natCast_nonneg f)]
        dsimp only
        omega
    | none =>
      have hpres := cache_flush_preserves uf (oldestIdx oldest)
      by_cases he : (cache_flush uf (oldestIdx oldest)).1 < 0
      · rw [cache_open_eq_evict_err hs he]
        rw [if_neg (by omega)]
        rw [hpres.2.2.2.1, hpres.2.2.2.2.1]
        omega
      · rw [cache_open_evict_state hs he, cache_open_evict_res hs he]
        cases hr : (cache_flush uf (oldestIdx oldest)).2.1.devRead blk with
        | none =>
          rw [readIn_none_state hr, readIn_none_res hr]
          rw [if_neg (by decide)]
          dsimp only
          rw [hpres.2.2.2.1, hpres.2.2.2.2.1]
          omega
        | some bs =>
          rw [readIn_some_state hr, readIn_some_res hr]
          rw [if_pos (Int.natCast_nonneg (oldestIdx oldest))]
          dsimp only
          rw [hpres.2.2.2.1, hpres.2.2.2.2.1]
          omega

theorem cache_open_status (uf : Ufat) (blk : Nat) :
    (ufat_cache_open uf blk).1 = -errIo ∨ 0 ≤ (ufat_cache_open uf blk).1 := by
  cases hs : scan uf blk with
  | hit i =>
    rw [cache_open_hit_res hs]
    exact Or.inr (Int.natCast_nonneg i)
  | miss free oldest =>
    cases free with
    | some f =>
      rw [cache_open_eq_free hs]
      cases hr : uf.devRead blk with
      | none => rw [readIn_none_res hr]; exact Or.inl rfl
      | some bs => rw [readIn_some_res hr]; exact Or.inr (Int.natCast_nonneg f)
    | none =>
      by_cases he : (cache_flush uf (oldestIdx oldest)).1 < 0
      · rw [cache_open_eq_evict_err hs he]
        rcases cache_flush_status uf (oldestIdx oldest) with h | h
        · omega
        · exact Or.inl h
      · rw [cache_open_evict_res hs he]
        cases hr : (cache_flush uf (oldestIdx oldest)).2.1.devRead blk with
        | none => rw [readIn_none_res hr]; exact Or.inl rfl
        | some bs =>
          rw [readIn_some_res hr]
          exact Or.inr (Int.natCast_nonneg (oldestIdx oldest))

/-! ### Properties of call sequences -/

theorem runOpens_size (uf : Ufat) (blks : List Nat) :
    (runOpens uf blks).cache_size = uf.cache_size := by
  induction blks generalizing uf with
  | nil => rfl
  | cons b rest ih =>
    rw [runOpens, ih, cache_open_size]

theorem runOpens_good (uf : Ufat) (blks : List Nat) (hg : goodCache uf) :
    goodCache (runOpens uf blks) := by
  induction blks generalizing uf with
  | nil => exact hg
  | cons b rest ih =>
    rw [runOpens]
    exact ih _ (cache_open_good uf b hg)

theorem runOpens_hitmiss (uf : Ufat) (blks : List Nat) :
    (runOpens uf blks).stat.cache_hit + (runOpens uf blks).stat.cache_miss =
      uf.stat.cache_hit + uf.stat.cache_miss +
        successCount (runResults uf blks) := by
  induction blks generalizing uf with
  | nil => simp [runOpens, runResults, successCount]
  | cons b rest ih =>
    rw [runOpens, runResults, successCount, ih, cache_open_hitmiss]
    by_cases h : 0 ≤ (ufat_cache_open uf b).1
    · rw [if_pos h]
      omega
    · rw [if_neg h]
      omega

theorem presentCount_le (uf : Ufat) : presentCount uf ≤ uf.cache_size := by
  unfold presentCount
  exact le_trans (List.length_filter_le _ _) (le_of_eq (List.length_range _))

/-! ### Status values of the FAT decoders -/

theorem read_fat16_status (uf : Ufat) (index : Nat) :
    (read_fat16 uf index).1 = 0 ∨ (read_fat16 uf index).1 = -errIo := by
  simp only [read_fat16]
  split
  · rename_i hc
    rcases cache_open_status uf
        (uf.bpb.fat_start + (index >>> (uf.log2_block_size - 1))) with h | h
    · exact Or.inr h
    · exact absurd h (by omega)
  · exact Or.inl rfl

theorem read_fat32_status (uf : Ufat) (index : Nat) :
    (read_fat32 uf index).1 = 0 ∨ (read_fat32 uf index).1 = -errIo := by
  simp only [read_fat32]
  split
  · rename_i hc
    rcases cache_open_status uf
        (uf.bpb.fat_start + (index >>> (uf.log2_block_size - 2))) with h | h
    · exact Or.inr h
    · exact absurd h (by omega)
  · exact Or.inl rfl

theorem ufat_read_fat_in_range_status (uf : Ufat) (index : Nat)
    (h : index < uf.bpb.num_clusters) :
    (ufat_read_fat uf index).1 = 0 ∨ (ufat_read_fat uf index).1 = -errIo := by
  unfold ufat_read_fat
  rw [if_neg (by omega)]
  cases htype : uf.bpb.type with
  | FAT12 => exact Or.inr rfl
  | FAT16 => exact read_fat16_status uf index
  | FAT32 => exact read_fat32_status uf index

/-! ### Claim theorems -/

/-- C1: claimed: when cache_flush writes a dirty slot whose block lies in
the primary FAT region, it additionally writes the data to the device at
slot.index + k * fat_size for every k in [1, fat_count), ignoring mirror
failures.  The source instead passes d->index to every mirror write (the
shifted address b is computed but unused), so on a volume with
fat_start = 10, fat_size = 5, fat_count = 3 and a dirty slot for block
10, the flush performs its three writes all at block 10 and never writes
the mirror addresses 15 = 10 + 1*5 and 20 = 10 + 2*5; the flush still
returns 0. -/
theorem cache_flush_mirror_writes_primary_address :
    (ufMirror.slot 0).dirty = true ∧ (ufMirror.slot 0).present = true ∧
    (ufMirror.slot 0).index = 10 ∧ ufMirror.bpb.fat_start = 10 ∧
    ufMirror.bpb.fat_size = 5 ∧ ufMirror.bpb.fat_count = 3 ∧
    (cache_flush ufMirror 0).1 = 0 ∧
    (cache_flush ufMirror 0).2.2 = [10, 10, 10] ∧
    (10 + 1 * 5) ∉ (cache_flush ufMirror 0).2.2 ∧
    (10 + 2 * 5) ∉ (cache_flush ufMirror 0).2.2 := by decide

/-- C2: claimed: ufat_sync flushes every slot without aborting and
returns the last non-zero error observed.  The source loop does record
the last non-zero error in its local ret (embedded as syncLoop) and does
not abort -- on ufSyncErr the flush of slot 0 fails with -errIo yet slot
1 is still flushed clean -- but the function returns the literal 0
instead of ret (ufat.c line 277). -/
theorem ufat_sync_discards_collected_error :
    (ufSyncErr.slot 0).dirty = true ∧ (ufSyncErr.slot 0).present = true ∧
    ufSyncErr.devWrite (ufSyncErr.slot 0).index = false ∧
    (cache_flush ufSyncErr 0).1 = -errIo ∧
    (syncLoop ufSyncErr 0 ufSyncErr.cache_size 0).1 = -errIo ∧
    (ufat_sync ufSyncErr).1 = 0 ∧
    ((ufat_sync ufSyncErr).2.1.slot 1).dirty = false ∧
    ((ufat_sync ufSyncErr).2.1.slot 0).dirty = true := by decide

/-- C3 counterexample: on the empty one-slot cache ufReadFail, whose
device read always fails, the call cache_open(42) returns an error and
block 42 is NOT present afterwards, contradicting the claims
unconditional "after cache_open(b) the block b is PRESENT in some
slot". -/
theorem cache_open_failed_read_leaves_block_absent :
    (∀ j, j < ufReadFail.cache_size → (ufReadFail.slot j).present = false) ∧
    (ufat_cache_open ufReadFail 42).1 < 0 ∧
    ¬ blockPresent (ufat_cache_open ufReadFail 42).2.1 42 := by
  refine ⟨by decide, by decide, by decide⟩

/-- C3 (amended): for every sequence of cache_open calls starting from
an empty cache of positive size, no two PRESENT slots ever share a
block index, at most cache_size slots (hence block indices) are present,
and after any cache_open(b) that succeeds (returns a non-negative slot
index) the block b is PRESENT in some slot. -/
theorem cache_open_sequence_invariants (uf0 : Ufat) (hcs : 0 < uf0.cache_size)
    (hempty : ∀ j, j < uf0.cache_size → (uf0.slot j).present = false)
    (blks : List Nat) (b : Nat) :
    goodCache (ufat_cache_open (runOpens uf0 blks) b).2.1 ∧
    presentCount (ufat_cache_open (runOpens uf0 blks) b).2.1 ≤ uf0.cache_size ∧
    (0 ≤ (ufat_cache_open (runOpens uf0 blks) b).1 →
      blockPresent (ufat_cache_open (runOpens uf0 blks) b).2.1 b) := by
  have hg0 : goodCache uf0 := by
    intro j hj k hk hjk pj pk
    rw [hempty j hj] at pj
    cases pj
  have hg1 := runOpens_good uf0 blks hg0
  have hsz : (runOpens uf0 blks).cache_size = uf0.cache_size :=
    runOpens_size uf0 blks
  refine ⟨cache_open_good _ b hg1, ?_, ?_⟩
  · have hle := presentCount_le (ufat_cache_open (runOpens uf0 blks) b).2.1
    rw [cache_open_size, hsz] at hle
    exact hle
  · intro hr
    exact cache_open_present _ b (by omega) hr

/-- C3 witness: the invariants instantiated on a concrete run (two
calls for block 5 into the one-slot cache ufSmall, then observing the
call for block 5). -/
theorem cache_open_sequence_invariants_witness :
    goodCache (ufat_cache_open (runOpens ufSmall [5, 5]) 5).2.1 ∧
    presentCount (ufat_cache_open (runOpens ufSmall [5, 5]) 5).2.1 ≤
      ufSmall.cache_size ∧
    (0 ≤ (ufat_cache_open (runOpens ufSmall [5, 5]) 5).1 →
      blockPresent (ufat_cache_open (runOpens ufSmall [5, 5]) 5).2.1 5) :=
  cache_open_sequence_invariants ufSmall (by decide) (by decide) [5, 5] 5

/-- C4 counterexample: on ufReadFail (freshly mounted: both counters 0)
one cache_open call is made, yet cache_hit + cache_miss = 0, not 1: a
failed open increments neither counter, contradicting the claims
"cache_hit + cache_miss equals the total number of cache_open calls". -/
theorem cache_open_failed_call_counts_no_hit_or_miss :
    ufReadFail.stat.cache_hit = 0 ∧ ufReadFail.stat.cache_miss = 0 ∧
    (runOpens ufReadFail [42]).stat.cache_hit +
      (runOpens ufReadFail [42]).stat.cache_miss ≠ ([42] : List Nat).length := by
  refine ⟨rfl, rfl, by decide⟩

/-- C4 (amended): for every sequence of cache_open calls on a volume
whose hit/miss counters start at zero (as ufat_open leaves them),
cache_hit + cache_miss equals the number of calls that returned success
(a non-negative slot index); calls that fail increment neither
counter. -/
theorem cache_hitmiss_counts_successful_opens (uf0 : Ufat)
    (h1 : uf0.stat.cache_hit = 0) (h2 : uf0.stat.cache_miss = 0)
    (blks : List Nat) :
    (runOpens uf0 blks).stat.cache_hit + (runOpens uf0 blks).stat.cache_miss =
      successCount (runResults uf0 blks) := by
  have h := runOpens_hitmiss uf0 blks
  rw [h1, h2] at h
  simpa using h

/-- C4 witness: the counter identity instantiated on a concrete run of
three calls (blocks 7, 7, 9) into the one-slot cache ufSmall. -/
theorem cache_hitmiss_counts_successful_opens_witness :
    ufSmall.stat.cache_hit = 0 ∧ ufSmall.stat.cache_miss = 0 ∧
    ((runOpens ufSmall [7, 7, 9]).stat.cache_hit +
        (runOpens ufSmall [7, 7, 9]).stat.cache_miss =
      successCount (runResults ufSmall [7, 7, 9])) :=
  ⟨rfl, rfl, cache_hitmiss_counts_successful_opens ufSmall rfl rfl [7, 7, 9]⟩

/-- C5: mounting the scenario-S1 volume (bytes_per_sector 512,
sectors_per_cluster 4, reserved 4, 2 FATs of 64 sectors, 512 root
entries, 65536 total sectors, valid signature, 512-byte device blocks)
succeeds, with type FAT16, root_size = 32 blocks and
cluster_start = 4 + 2*64 + 32 = 164. -/
theorem ufat_open_fat16_scenario :
    (ufat_open 8192 8 9 devS1 (fun _ => true)).1 = 0 ∧
    (ufat_open 8192 8 9 devS1 (fun _ => true)).2.bpb.type = .FAT16 ∧
    (ufat_open 8192 8 9 devS1 (fun _ => true)).2.bpb.root_size = 32 ∧
    (ufat_open 8192 8 9 devS1 (fun _ => true)).2.bpb.fat_start = 4 ∧
    (ufat_open 8192 8 9 devS1 (fun _ => true)).2.bpb.fat_size = 64 ∧
    (ufat_open 8192 8 9 devS1 (fun _ => true)).2.bpb.fat_count = 2 ∧
    (ufat_open 8192 8 9 devS1 (fun _ => true)).2.bpb.cluster_start = 164 := by
  decide

/-- C6: on FAT32 the read first masks the raw 32-bit entry with
UFAT_CLUSTER_MASK = 0x0FFFFFFF: a masked value at least 0x0FFFFFF8
decodes to EOC, a masked value at least 0x0FFFFFF0 (below 0x0FFFFFF8)
to BAD, and any other masked value is returned as is, so a plain
cluster-number result always satisfies result AND 0xF0000000 = 0; in
particular the raw entry 0xF000ABCD (= 0xF0000000 OR 0x0000ABCD) at
cluster 7 decodes to 0x0000ABCD through the full ufat_read_fat path. -/
theorem read_fat32_masking :
    (∀ raw : Nat, raw &&& UFAT_CLUSTER_MASK ≥ 0xffffff8 →
        fat32_decode raw = UFAT_CLUSTER_EOC) ∧
    (∀ raw : Nat, raw &&& UFAT_CLUSTER_MASK ≥ 0xffffff0 →
        raw &&& UFAT_CLUSTER_MASK < 0xffffff8 →
        fat32_decode raw = UFAT_CLUSTER_BAD) ∧
    (∀ raw : Nat, raw &&& UFAT_CLUSTER_MASK < 0xffffff0 →
        fat32_decode raw = raw &&& UFAT_CLUSTER_MASK ∧
        fat32_decode raw &&& 0xf0000000 = 0) ∧
    (0xf0000000 ||| 0x0000abcd : Nat) = 0xf000abcd ∧
    (ufat_read_fat ufS5 7).1 = 0 ∧
    (ufat_read_fat ufS5 7).2.1 = some 0xabcd := by
  refine ⟨?_, ?_, ?_, by decide, by decide, by decide⟩
  · intro raw h
    simp only [fat32_decode]
    rw [if_pos h]
  · intro raw h1 h2
    simp only [fat32_decode]
    rw [if_neg (by omega), if_pos h1]
  · intro raw h
    have h8 : ¬(raw &&& UFAT_CLUSTER_MASK ≥ 0xffffff8) := by omega
    have h0 : ¬(raw &&& UFAT_CLUSTER_MASK ≥ 0xffffff0) := by omega
    constructor
    · simp only [fat32_decode]
      rw [if_neg h8, if_neg h0]
    · simp only [fat32_decode]
      rw [if_neg h8, if_neg h0]
      rw [Nat.and_assoc,
        (by decide : (UFAT_CLUSTER_MASK &&& 0xf0000000 : Nat) = 0), Nat.and_zero]

/-- C6 witness: the decode equations instantiated at concrete raw
values: 0xFFFFFFF8 (masked 0x0FFFFFF8) gives EOC, 0xFFFFFFF0 (masked
0x0FFFFFF0) gives BAD, 0xF000ABCD gives 0x0000ABCD with its top four
bits clear. -/
theorem read_fat32_masking_witness :
    fat32_decode 0xfffffff8 = UFAT_CLUSTER_EOC ∧
    fat32_decode 0xfffffff0 = UFAT_CLUSTER_BAD ∧
    (fat32_decode 0xf000abcd = 0xf000abcd &&& UFAT_CLUSTER_MASK ∧
      fat32_decode 0xf000abcd &&& 0xf0000000 = 0) :=
  ⟨read_fat32_masking.1 0xfffffff8 (by decide),
   read_fat32_masking.2.1 0xfffffff0 (by decide) (by decide),
   read_fat32_masking.2.2.1 0xf000abcd (by decide)⟩

/-- C7: on FAT16 the raw 16-bit entry decodes to EOC when at least
0xFFF8, to BAD when at least 0xFFF0 (and below 0xFFF8), and to itself
otherwise; in particular, through the full ufat_read_fat path at
cluster 5, entry 0xFFFF gives EOC, 0xFFF7 gives BAD and 0x1234 gives
0x1234. -/
theorem read_fat16_terminal_decode :
    (∀ raw : Nat, raw ≥ 0xfff8 → fat16_decode raw = UFAT_CLUSTER_EOC) ∧
    (∀ raw : Nat, raw ≥ 0xfff0 → raw < 0xfff8 →
        fat16_decode raw = UFAT_CLUSTER_BAD) ∧
    (∀ raw : Nat, raw < 0xfff0 → fat16_decode raw = raw) ∧
    (ufat_read_fat (ufS4 0xffff) 5).1 = 0 ∧
    (ufat_read_fat (ufS4 0xffff) 5).2.1 = some UFAT_CLUSTER_EOC ∧
    (ufat_read_fat (ufS4 0xfff7) 5).1 = 0 ∧
    (ufat_read_fat (ufS4 0xfff7) 5).2.1 = some UFAT_CLUSTER_BAD ∧
    (ufat_read_fat (ufS4 0x1234) 5).1 = 0 ∧
    (ufat_read_fat (ufS4 0x1234) 5).2.1 = some 0x1234 := by
  refine ⟨?_, ?_, ?_, by decide, by decide, by decide, by decide, by decide,
    by decide⟩
  · intro raw h
    unfold fat16_decode
    rw [if_pos h]
  · intro raw h1 h2
    unfold fat16_decode
    rw [if_neg (by omega), if_pos h1]
  · intro raw h
    unfold fat16_decode
    rw [if_neg (by omega), if_neg (by omega)]

/-- C7 witness: the decode equations instantiated at the scenario-S4
entry values 0xFFFF, 0xFFF7 and 0x1234. -/
theorem read_fat16_terminal_decode_witness :
    fat16_decode 0xffff = UFAT_CLUSTER_EOC ∧
    fat16_decode 0xfff7 = UFAT_CLUSTER_BAD ∧
    fat16_decode 0x1234 = 0x1234 :=
  ⟨read_fat16_terminal_decode.1 0xffff (by decide),
   read_fat16_terminal_decode.2.1 0xfff7 (by decide) (by decide),
   read_fat16_terminal_decode.2.2.1 0x1234 (by decide)⟩

/-- C8: ufat_read_fat returns -INVALID_CLUSTER exactly when the index
is at least num_clusters; in that case it performs no cache or device
access (state unchanged, no device write, out-parameter untouched),
and an in-range index can never produce -INVALID_CLUSTER (it yields 0,
or the IO error from the device or the FAT12 stub). -/
theorem ufat_read_fat_invalid_cluster_iff :
    (∀ (uf : Ufat) (index : Nat), index ≥ uf.bpb.num_clusters →
        ufat_read_fat uf index = (-errInvalidCluster, none, uf, [])) ∧
    (∀ (uf : Ufat) (index : Nat), index < uf.bpb.num_clusters →
        (ufat_read_fat uf index).1 ≠ -errInvalidCluster) := by
  constructor
  · intro uf index h
    unfold ufat_read_fat
    rw [if_pos h]
  · intro uf index h
    rcases ufat_read_fat_in_range_status uf index h with h0 | h0 <;>
      rw [h0] <;> decide

/-- C8 witness: on the 10-cluster volume ufF12, index 10 is rejected
with -INVALID_CLUSTER and no state change, while the in-range index 0
does not produce -INVALID_CLUSTER. -/
theorem ufat_read_fat_invalid_cluster_iff_witness :
    ufat_read_fat ufF12 10 = (-errInvalidCluster, none, ufF12, []) ∧
    (ufat_read_fat ufF12 0).1 ≠ -errInvalidCluster :=
  ⟨ufat_read_fat_invalid_cluster_iff.1 ufF12 10 (by decide),
   ufat_read_fat_invalid_cluster_iff.2 ufF12 0 (by decide)⟩

/-- C9: on a FAT12-typed volume, ufat_read_fat with any in-range
cluster index returns the literal -1 (numerically the negation of the
IO error code) from the read_fat12 stub, leaves the volume untouched,
performs no device write and never writes the out-parameter. -/
theorem read_fat12_stub_io_error (uf : Ufat) (index : Nat)
    (ht : uf.bpb.type = .FAT12) (hin : index < uf.bpb.num_clusters) :
    ufat_read_fat uf index = (-1, none, uf, []) ∧ (-1 : Int) = -errIo := by
  refine ⟨?_, rfl⟩
  unfold ufat_read_fat
  rw [if_neg (by omega), ht]
  rfl

/-- C9 witness: the FAT12 stub behaviour at the concrete in-range index
3 of the FAT12 volume ufF12. -/
theorem read_fat12_stub_io_error_witness :
    ufat_read_fat ufF12 3 = (-1, none, ufF12, []) ∧ (-1 : Int) = -errIo :=
  read_fat12_stub_io_error ufF12 3 (by decide) (by decide)

/-- C10: parse_bpb places no lower bound on the total sector count: the
boot sector bootShort passes every check with total sectors 4 although
reserved (1) + FATs (2 * 10) + root sectors (1) = 22 > 4, and parsing
succeeds with num_clusters computed from the 32-bit wraparound
(4 - 22 mod 2^32 = 2^32 - 18, shifted by 0 and incremented by 2),
yielding the enormous cluster count 4294967280 = 2^32 - 16 instead of
an error. -/
theorem parse_bpb_total_sectors_underflow :
    r16 bootShort 0x013 = 4 ∧ r16 bootShort 0x00e = 1 ∧
    r16 bootShort 0x016 = 10 ∧ bootShort 0x010 = 2 ∧
    (4 : Nat) < 1 + 10 * 2 + 1 ∧
    (parse_bpb 9 bootShort).toOption =
      some ⟨.FAT16, 0, 1, 10, 2, 1, 21, 22, 0, 4294967280⟩ ∧
    usub32 (usub32 (usub32 4 1) 20) 1 + 2 = 4294967280 ∧
    (4294967280 : Nat) = 2 ^ 32 - 16 := by decide
